import Mathlib

/-!
Verification of the `rcm_nexus.session` module: a thin HTTP session helper
that merges headers, issues GET/POST/PUT with an expected-status check,
reports errors to stderr (optionally raising), and streams downloads.

The embedding is shallow: the network is an oracle (the `HttpResponse` the
server would return is a parameter), Python dicts are association lists with
Python `dict` semantics, Python exceptions are an explicit `PyError` sum, and
text printed to stderr is collected in a `List String`.
-/

namespace RcmNexus

/-- A Python `dict` with string keys and values, as an insertion-ordered
association list with at most one entry per key (the `dict` invariant). -/
abbrev Dict := List (String × String)

/-- Python `d.get(k)` / `d[k]` lookup: the value stored for key `k`, if any. -/
def dictGet (d : Dict) (k : String) : Option String :=
  (d.find? (fun p => p.1 == k)).map Prod.snd

/-- Python `d[k] = v`: replace the entry for `k` in place if present, else append. -/
def dictSet (d : Dict) (k v : String) : Dict :=
  if d.any (fun p => p.1 == k) then
    d.map (fun p => if p.1 == k then (k, v) else p)
  else
    d ++ [(k, v)]

/-- Python `d.update(h)`: set each entry of `h` into `d`, in order. -/
def dictUpdate (d : Dict) (h : Dict) : Dict :=
  h.foldl (fun acc p => dictSet acc p.1 p.2) d

/-- JSON values, the possible results of `response.json()`. -/
inductive Json where
  | null
  | bool (b : Bool)
  | num (n : Int)
  | str (s : String)
  | arr (elems : List Json)
  | obj (fields : List (String × Json))

/-- Python exceptions that the session code can raise. -/
inductive PyError where
  /-- Python `KeyError` from indexing a missing key of a dict. -/
  | keyError (k : String)
  /-- Python `TypeError` from indexing or iterating a value of the wrong shape. -/
  | typeError
  /-- Error `requests.exceptions.JSONDecodeError` from `response.json()` on a non-JSON body. -/
  | jsonDecodeError
  /-- Error `requests.exceptions.HTTPError` from `response.raise_for_status()`. -/
  | httpError (status : Nat)
  /-- The module's own `FileNotFoundError(RuntimeError)`. -/
  | fileNotFoundError
  /-- Python `AttributeError` from `self.auth.username` when `self.auth is None`. -/
  | attributeError
deriving DecidableEq, Repr

/-- The configuration collaborator: base url, optional username, password,
ssl verification flag. -/
structure Config where
  url : String
  username : Option String
  password : String
  ssl_verify : Bool

/-- The response the server returns for a request. `chunks` are the byte
chunks the transport delivers (modelled as strings); the response body is
their concatenation. `jsonValue` is the result of parsing the body as JSON
(`none` when the body is not valid JSON). -/
structure HttpResponse where
  method : String
  status_code : Nat
  headers : Dict
  jsonValue : Option Json
  chunks : List String

/-- Model of `response.text`: the full decoded response body. -/
def HttpResponse.text (r : HttpResponse) : String :=
  String.join r.chunks

/-- The `Session` object: config, debug flag, optional basic-auth credential
pair (username, password), and the default header dict. -/
structure Session where
  config : Config
  debug : Bool
  auth : Option (String × String)
  headers : Dict

/-- Constructor `Session.__init__`: auth is set exactly when a username is configured,
and the default headers are the two XML entries. -/
def Session.init (config : Config) (debug : Bool) : Session :=
  { config := config
    debug := debug
    auth :=
      match config.username with
      | some u => some (u, config.password)
      | none => none
    headers := [("Accept", "application/xml"), ("Content-Type", "application/xml")] }

/-- Method `Session._combine_headers(headers)` with `existing_headers = self.headers`:
`result = dict(existing_headers)` takes a fresh copy, `result.update(headers)`
mutates only that copy, and `result` is returned. The returned `Session` is
the state of the session object afterwards: untouched, since only the copy
was updated. -/
def combine_headers (s : Session) (headers : Option Dict) : Dict × Session :=
  let existing_headers := s.headers
  let result := existing_headers
  let result :=
    match headers with
    | none => result
    | some h => dictUpdate result h
  (result, s)

/-- A heap of Python dict objects, addressed by index, to model the aliasing
behaviour of `_combine_headers`: `self.headers` is a reference into the heap,
`dict(existing_headers)` allocates a fresh object, and `result.update(...)`
mutates only the fresh object. -/
abbrev Heap := List Dict

/-- Dereference a dict object. -/
def heapGet (hp : Heap) (r : Nat) : Dict :=
  hp.getD r []

/-- Overwrite the dict object at reference `r`. -/
def heapSet (hp : Heap) (r : Nat) (d : Dict) : Heap :=
  hp.set r d

/-- Allocate a fresh dict object; its reference is distinct from every live
reference. -/
def heapAlloc (hp : Heap) (d : Dict) : Nat × Heap :=
  (hp.length, hp ++ [d])

/-- Method `Session._combine_headers` with the heap made explicit:
`existing_headers = self.headers` aliases the session's dict,
`result = dict(existing_headers)` allocates a copy, and
`result.update(headers)` assigns through the `result` reference only. -/
def combine_headers_heap (hp : Heap) (selfHeaders : Nat) (headers : Option Dict) :
    Nat × Heap :=
  let existing_headers := heapGet hp selfHeaders
  let result := (heapAlloc hp existing_headers).1
  let hp1 := (heapAlloc hp existing_headers).2
  let hp2 :=
    match headers with
    | none => hp1
    | some h => heapSet hp1 result (dictUpdate (heapGet hp1 result) h)
  (result, hp2)

/-- The first diagnostic line of `_handle_error`:
`"%s %s failed: %s" % (response.request.method.upper(), path, response.status_code)`. -/
def failLine (r : HttpResponse) (path : String) : String :=
  r.method.toUpper ++ " " ++ path ++ " failed: " ++ toString r.status_code

/-- The credential hint printed on a 401, including `self.auth.username`. -/
def credentialHint (username : String) : String :=
  "Incorrect credentials for user " ++ username ++
    ". Username can be changed by setting USER env var, or in ~/.config/rcm-nexus.conf."

/-- The permissions hint printed on a 403. -/
def forbiddenHint : String :=
  "You don\x27t have permissions to perform this action. Contact maintainers " ++
    "of the Nexus instance you are trying to use."

/-- Python `s.startswith(pre)`: `pre` is a prefix of `s`. -/
def pyStartsWith (s pre : String) : Bool :=
  pre.data.isPrefixOf s.data

/-- Check `response.headers.get("Content-Type", "").startswith("application/json")`. -/
def contentTypeIsJson (r : HttpResponse) : Bool :=
  pyStartsWith ((dictGet r.headers "Content-Type").getD "") "application/json"

/-- Python `x[k]` for a JSON value `x` and string key `k`: only dicts can be
indexed by a string, and a missing key is a `KeyError`. -/
def jsonIndex (v : Json) (k : String) : Except PyError Json :=
  match v with
  | .obj fields =>
    match fields.find? (fun p => p.1 == k) with
    | some p => .ok p.2
    | none => .error (.keyError k)
  | _ => .error .typeError

/-- Python `str(x)` for a JSON value, as `print` renders it. -/
def pyStr : Json → String
  | .null => "None"
  | .bool b => if b then "True" else "False"
  | .num n => toString n
  | .str s => s
  | .arr _ => "[...]"
  | .obj _ => "\x7b...\x7d"

/-- Python `for x in v` over a JSON value: lists iterate elements, strings
iterate one-character strings, dicts iterate keys; other values raise
`TypeError`. -/
def pyIter (v : Json) : Except PyError (List Json) :=
  match v with
  | .arr l => .ok l
  | .str s => .ok (s.data.map (fun c => Json.str (String.mk [c])))
  | .obj fields => .ok (fields.map (fun p => Json.str p.1))
  | _ => .error .typeError

/-- Loop `for error in errs: print(error["msg"], file=sys.stderr)`: the lines
printed before the first failure, and the exception if one is raised. -/
def printMsgs : List Json → List String × Option PyError
  | [] => ([], none)
  | e :: rest =>
    match jsonIndex e "msg" with
    | .error er => ([], some er)
    | .ok v =>
      let tail := printMsgs rest
      (pyStr v :: tail.1, tail.2)

/-- Lines 116-119 of `_handle_error`: `data = response.json()`, then
`for error in data["errors"]: print(error["msg"])`. Returns the lines
printed and the exception raised, if any. -/
def jsonErrorLines (r : HttpResponse) : List String × Option PyError :=
  match r.jsonValue with
  | none => ([], some .jsonDecodeError)
  | some data =>
    match jsonIndex data "errors" with
    | .error e => ([], some e)
    | .ok errs =>
      match pyIter errs with
      | .error e => ([], some e)
      | .ok items => printMsgs items

/-- Model of `response.raise_for_status()`: it raises `HTTPError` exactly for 4xx and 5xx
status codes. -/
def raise_for_status (r : HttpResponse) : Except PyError Unit :=
  if 400 ≤ r.status_code ∧ r.status_code < 600 then
    .error (.httpError r.status_code)
  else
    .ok ()

/-- Lines 103-109 of `_handle_error`: on a 401 print the credential hint,
which reads `self.auth.username` and therefore raises `AttributeError`
(before printing anything further) when `self.auth is None`. -/
def hint401 (s : Session) (r : HttpResponse) : List String × Option PyError :=
  if r.status_code = 401 then
    match s.auth with
    | none => ([], some .attributeError)
    | some a => ([credentialHint a.1], none)
  else
    ([], none)

/-- Lines 116-119 of `_handle_error`: the JSON branch runs only when the
response content type starts with `application/json`. -/
def jsonPart (r : HttpResponse) : List String × Option PyError :=
  if contentTypeIsJson r then jsonErrorLines r else ([], none)

/-- Method `Session._handle_error(response, path, fail)`: prints the failure line;
on 401 prints the credential hint (reading `self.auth.username`, which
raises `AttributeError` when auth is `None`); on 403 prints the permissions
hint; on a JSON content type parses the body and prints each
`errors[].msg`; then raises via `raise_for_status` when `fail` is set,
otherwise returns `(response, None)`. Result: the stderr lines printed, and
either the exception raised or the returned pair. -/
def handle_error (s : Session) (r : HttpResponse) (path : String) (fail : Bool) :
    List String × Except PyError (HttpResponse × Option String) :=
  let p1 := hint401 s r
  let out := [failLine r path] ++ p1.1
  match p1.2 with
  | some e => (out, .error e)
  | none =>
    let out := if r.status_code = 403 then out ++ [forbiddenHint] else out
    let p2 := jsonPart r
    let out := out ++ p2.1
    match p2.2 with
    | some e => (out, .error e)
    | none =>
      if fail then
        match raise_for_status r with
        | .error e => (out, .error e)
        | .ok _ => (out, .ok (r, none))
      else
        (out, .ok (r, none))

/-- Method `Session.get(path, headers, expect_status, ignore_404, fail)` given the
response the server returns: expected status or an ignored 404 yield
`(response, response.text)`; anything else goes to `_handle_error`. The
first component is the stderr diagnostic output. -/
def Session.get (s : Session) (path : String) (headers : Option Dict)
    (expect_status : Nat) (ignore_404 : Bool) (fail : Bool) (response : HttpResponse) :
    List String × Except PyError (HttpResponse × Option String) :=
  let _h := (combine_headers s headers).1
  if response.status_code = expect_status then
    ([], .ok (response, some response.text))
  else if ignore_404 ∧ response.status_code = 404 then
    ([], .ok (response, some response.text))
  else
    handle_error s response path fail

/-- Method `Session.post(path, body, ...)`: same classification as `get`; the body
only affects the request sent, not the handling of the response. -/
def Session.post (s : Session) (path : String) (body : String) (headers : Option Dict)
    (expect_status : Nat) (ignore_404 : Bool) (fail : Bool) (response : HttpResponse) :
    List String × Except PyError (HttpResponse × Option String) :=
  let _h := (combine_headers s headers).1
  let _body := body
  if response.status_code = expect_status then
    ([], .ok (response, some response.text))
  else if ignore_404 ∧ response.status_code = 404 then
    ([], .ok (response, some response.text))
  else
    handle_error s response path fail

/-- Method `Session.put(path, body, ...)`: same classification as `get`. -/
def Session.put (s : Session) (path : String) (body : String) (headers : Option Dict)
    (expect_status : Nat) (ignore_404 : Bool) (fail : Bool) (response : HttpResponse) :
    List String × Except PyError (HttpResponse × Option String) :=
  let _h := (combine_headers s headers).1
  let _body := body
  if response.status_code = expect_status then
    ([], .ok (response, some response.text))
  else if ignore_404 ∧ response.status_code = 404 then
    ([], .ok (response, some response.text))
  else
    handle_error s response path fail

/-- The outcome of running the `stream_remote` generator: the stderr lines,
the chunks yielded to the consumer, the exception raised (if any), and
whether the streaming connection was closed. -/
structure StreamRun where
  stderr : List String
  yielded : List String
  outcome : Except PyError Unit
  closed : Bool

/-- Method `Session.stream_remote(url)` given the streaming response and the number
of chunks the consumer pulls before abandoning the generator (pulling at
least `response.chunks.length` is full consumption). The response is
acquired with `with requests.get(...) as resp`, so the connection is closed
on every exit from the block: a `FileNotFoundError` on 404, the exception
`_handle_error(..., fail=True)` raises on other `>= 400` statuses, normal
exhaustion of `resp.iter_content(None)`, and generator finalization when
the consumer abandons early. -/
def Session.stream_remote (s : Session) (url : String) (response : HttpResponse)
    (consumed : Nat) : StreamRun :=
  if response.status_code = 404 then
    { stderr := [], yielded := [], outcome := .error .fileNotFoundError, closed := true }
  else if 400 ≤ response.status_code then
    match handle_error s response url true with
    | (out, .error e) =>
      { stderr := out, yielded := [], outcome := .error e, closed := true }
    | (out, .ok _) =>
      { stderr := out, yielded := response.chunks.take consumed, outcome := .ok (),
        closed := true }
  else
    { stderr := [], yielded := response.chunks.take consumed, outcome := .ok (),
      closed := true }

/-! ## Dictionary lemmas -/

theorem dictGet_nil (k : String) : dictGet ([] : Dict) k = none := rfl

theorem dictGet_cons_self (p : String × String) (t : Dict) (k : String)
    (hp : p.1 = k) : dictGet (p :: t) k = some p.2 := by
  rw [dictGet, List.find?_cons_of_pos _ (by simp [hp])]
  rfl

theorem dictGet_cons_ne (p : String × String) (t : Dict) (k : String)
    (hp : ¬p.1 = k) : dictGet (p :: t) k = dictGet t k := by
  rw [dictGet, List.find?_cons_of_neg _ (by simp [hp]), dictGet]

/-- The in-place replacement performed by `dictSet` when the key is present
does not disturb lookups of other keys. -/
theorem find?_map_setter (d : Dict) (k v k' : String) (hkk : ¬k' = k) :
    List.find? (fun p => p.1 == k')
        (d.map (fun p => if p.1 == k then (k, v) else p)) =
      List.find? (fun p => p.1 == k') d := by
  induction d with
  | nil => rfl
  | cons p t ih =>
    rw [List.map_cons]
    by_cases hp : p.1 = k
    · have h1 : (if (p.1 == k) = true then (k, v) else p) = (k, v) := by simp [hp]
      rw [h1, List.find?_cons_of_neg _ (by simp; exact fun hh => hkk hh.symm),
        List.find?_cons_of_neg _ (by simp [hp]; exact fun hh => hkk hh.symm), ih]
    · have h1 : (if (p.1 == k) = true then (k, v) else p) = p := by simp [hp]
      rw [h1]
      by_cases hp' : p.1 = k'
      · rw [List.find?_cons_of_pos _ (by simp [hp']),
          List.find?_cons_of_pos _ (by simp [hp'])]
      · rw [List.find?_cons_of_neg _ (by simp [hp']),
          List.find?_cons_of_neg _ (by simp [hp']), ih]

/-- When the key is already present, the in-place replacement of `dictSet`
makes lookups of that key return the new value. -/
theorem dictGet_map_setter_self (d : Dict) (k v : String)
    (hany : d.any (fun p => p.1 == k) = true) :
    dictGet (d.map (fun p => if p.1 == k then (k, v) else p)) k = some v := by
  induction d with
  | nil => cases hany
  | cons p t ih =>
    rw [List.map_cons]
    by_cases hp : p.1 = k
    · have h1 : (if (p.1 == k) = true then (k, v) else p) = (k, v) := by simp [hp]
      rw [h1, dictGet_cons_self _ _ _ rfl]
    · have h1 : (if (p.1 == k) = true then (k, v) else p) = p := by simp [hp]
      have hany' : t.any (fun q => q.1 == k) = true := by
        simpa [List.any_cons, hp] using hany
      rw [h1, dictGet_cons_ne _ _ _ hp]
      exact ih hany'

/-- Lemma: `dictSet` characterised through `dictGet`. -/
theorem dictGet_dictSet (d : Dict) (k v k' : String) :
    dictGet (dictSet d k v) k' = if k' = k then some v else dictGet d k' := by
  by_cases hany : d.any (fun p => p.1 == k) = true
  · rw [dictSet, if_pos hany]
    by_cases hkk : k' = k
    · subst hkk
      rw [if_pos rfl]
      exact dictGet_map_setter_self d k' v hany
    · rw [if_neg hkk, dictGet, find?_map_setter d k v k' hkk, dictGet]
  · rw [dictSet, if_neg hany]
    have hnone : List.find? (fun p => p.1 == k) d = none := by
      rw [List.find?_eq_none]
      intro x hx hxk
      exact hany (List.any_eq_true.mpr ⟨x, hx, hxk⟩)
    by_cases hkk : k' = k
    · subst hkk
      rw [if_pos rfl, dictGet, List.find?_append, hnone, Option.none_or,
        List.find?_cons_of_pos _ (by simp)]
      rfl
    · rw [if_neg hkk, dictGet, List.find?_append,
        List.find?_cons_of_neg _ (by simp; exact fun hh => hkk hh.symm)]
      show ((List.find? _ d).or (List.find? _ [])).map Prod.snd = _
      rw [List.find?_nil, Option.or_none, dictGet]

/-- Keys absent from the overlay keep their value across `dictUpdate`. -/
theorem dictGet_dictUpdate_of_not_mem (h : Dict) (k : String) :
    dictGet h k = none → ∀ d : Dict, dictGet (dictUpdate d h) k = dictGet d k := by
  induction h with
  | nil => intro _ d; rfl
  | cons p t ih =>
    intro hk d
    by_cases hp : p.1 = k
    · rw [dictGet_cons_self _ _ _ hp] at hk
      cases hk
    · rw [dictGet_cons_ne _ _ _ hp] at hk
      have step : dictUpdate d (p :: t) = dictUpdate (dictSet d p.1 p.2) t := rfl
      rw [step, ih hk, dictGet_dictSet, if_neg (fun hh : k = p.1 => hp hh.symm)]

/-- Keys of the overlay take the overlay's value across `dictUpdate`,
provided the overlay is a genuine dict (no duplicate keys). -/
theorem dictGet_dictUpdate_of_mem (h : Dict) (k v : String)
    (hnd : (h.map Prod.fst).Nodup) (hk : dictGet h k = some v) :
    ∀ d : Dict, dictGet (dictUpdate d h) k = some v := by
  induction h with
  | nil => cases hk
  | cons p t ih =>
    intro d
    have step : dictUpdate d (p :: t) = dictUpdate (dictSet d p.1 p.2) t := rfl
    by_cases hp : p.1 = k
    · have hv : p.2 = v := by
        rw [dictGet_cons_self _ _ _ hp] at hk
        exact Option.some.inj hk
    -- `k` cannot recur in the tail, so the value set by the head survives.
      have hknot : dictGet t k = none := by
        have hkmem : k ∉ t.map Prod.fst := by
          have h2 := hnd
          simp only [List.map_cons, List.nodup_cons] at h2
          rw [hp] at h2
          exact h2.1
        rw [dictGet]
        cases hfind : t.find? (fun q => q.1 == k) with
        | none => rfl
        | some q =>
          exact absurd
            (List.mem_map.mpr ⟨q, List.mem_of_find?_eq_some hfind,
              by simpa using List.find?_some hfind⟩) hkmem
      rw [step, dictGet_dictUpdate_of_not_mem t k hknot, dictGet_dictSet,
        if_pos hp.symm, hv]
    · have ht : dictGet t k = some v := by
        rw [dictGet_cons_ne _ _ _ hp] at hk
        exact hk
      have hnd' : (t.map Prod.fst).Nodup := by
        rw [List.map_cons, List.nodup_cons] at hnd
        exact hnd.2
      rw [step]
      exact ih hnd' ht (dictSet d p.1 p.2)

/-! ## Heap lemmas for the header-mutation frame property -/

theorem heapGet_heapAlloc_of_lt (hp : Heap) (d : Dict) (r : Nat)
    (hr : r < hp.length) : heapGet (heapAlloc hp d).2 r = heapGet hp r := by
  rw [heapGet, heapAlloc, List.getD_append _ _ _ _ hr, heapGet]

theorem heapGet_heapAlloc_fresh (hp : Heap) (d : Dict) :
    heapGet (heapAlloc hp d).2 (heapAlloc hp d).1 = d := by
  rw [heapAlloc, heapGet, List.getD_eq_getElem?_getD,
    List.getElem?_concat_length, Option.getD_some]

theorem heapGet_heapSet_ne (hp : Heap) (i r : Nat) (d : Dict) (hir : i ≠ r) :
    heapGet (heapSet hp i d) r = heapGet hp r := by
  rw [heapGet, heapSet, List.getD_eq_getElem?_getD, List.getElem?_set_ne hir,
    ← List.getD_eq_getElem?_getD, heapGet]

theorem heapGet_heapSet_self (hp : Heap) (i : Nat) (d : Dict)
    (hi : i < hp.length) : heapGet (heapSet hp i d) i = d := by
  rw [heapGet, heapSet, List.getD_eq_getElem?_getD, List.getElem?_set_self hi,
    Option.getD_some]

/-! ## `_handle_error` lemmas -/

/-- With `fail=True` and a genuine HTTP error status, `_handle_error` always
ends in a raise: either one of the earlier branches raises, or
`raise_for_status` does. -/
theorem handle_error_raises_of_fail (s : Session) (r : HttpResponse)
    (path : String) (h4 : 400 ≤ r.status_code) (h6 : r.status_code < 600) :
    ∃ e, (handle_error s r path true).2 = Except.error e := by
  rw [handle_error]
  cases h1 : (hint401 s r).2 with
  | some e => exact ⟨e, rfl⟩
  | none =>
    simp only
    cases h2 : (jsonPart r).2 with
    | some e => exact ⟨e, rfl⟩
    | none =>
      simp only [raise_for_status, if_pos (And.intro h4 h6), if_pos rfl]
      exact ⟨.httpError r.status_code, rfl⟩

/-- The two ways `_handle_error` can raise before consulting `fail` are
absent: a 401 finds configured auth, and the JSON branch (when taken)
neither fails to decode nor misses a key. -/
def handleErrorSafe (s : Session) (r : HttpResponse) : Bool :=
  (decide (r.status_code ≠ 401) || s.auth.isSome) &&
    (!contentTypeIsJson r || (jsonErrorLines r).2.isNone)

theorem hint401_none_of_safe (s : Session) (r : HttpResponse)
    (hs : handleErrorSafe s r = true) : (hint401 s r).2 = none := by
  rw [hint401]
  by_cases h401 : r.status_code = 401
  · rw [if_pos h401]
    have hauth : s.auth.isSome := by
      rw [handleErrorSafe, Bool.and_eq_true, Bool.or_eq_true] at hs
      rcases hs.1 with h | h
    -- the status is 401, so the first disjunct is absurd
      · exact absurd h401 (by simpa using h)
      · exact h
    cases ha : s.auth with
    | none => rw [ha] at hauth; cases hauth
    | some a => rfl
  · rw [if_neg h401]

theorem jsonPart_none_of_safe (s : Session) (r : HttpResponse)
    (hs : handleErrorSafe s r = true) : (jsonPart r).2 = none := by
  rw [jsonPart]
  cases hct : contentTypeIsJson r with
  | false => rfl
  | true =>
    rw [if_pos rfl]
    rw [handleErrorSafe, hct, Bool.and_eq_true] at hs
    have h2 := hs.2
    simp only [Bool.not_true, Bool.false_or] at h2
    exact Option.isNone_iff_eq_none.mp h2

/-- In the safe cases, the result of `_handle_error` is `(response, None)`
whenever `fail` is unset or the status is not one `raise_for_status`
rejects. -/
theorem handle_error_ok (s : Session) (r : HttpResponse) (path : String)
    (fail : Bool) (hs : handleErrorSafe s r = true)
    (hf : fail = false ∨ r.status_code < 400 ∨ 600 ≤ r.status_code) :
    (handle_error s r path fail).2 = Except.ok (r, none) := by
  rw [handle_error]
  rw [hint401_none_of_safe s r hs]
  simp only
  rw [jsonPart_none_of_safe s r hs]
  simp only
  cases fail with
  | false => rfl
  | true =>
    rcases hf with hf | hf
    · cases hf
    · have : ¬(400 ≤ r.status_code ∧ r.status_code < 600) := by
        rcases hf with hf | hf
        · exact fun hc => absurd hf (by omega)
        · exact fun hc => absurd hf (by omega)
      rw [if_pos rfl, raise_for_status, if_neg this]

/-- A 401 taking the error path with auth configured always gets the
credential hint printed, wherever the handler ends up afterwards. -/
theorem handle_error_mem_credentialHint (s : Session) (r : HttpResponse)
    (path : String) (fail : Bool) (u pw : String)
    (h401 : r.status_code = 401) (hauth : s.auth = some (u, pw)) :
    credentialHint u ∈ (handle_error s r path fail).1 := by
  have hh : hint401 s r = ([credentialHint u], none) := by
    rw [hint401, if_pos h401, hauth]
  rw [handle_error, hh]
  simp only
  have hmem : ∀ l : List String,
      credentialHint u ∈ [failLine r path] ++ [credentialHint u] ++ l := by
    intro l
    simp
  cases h2 : (jsonPart r).2 with
  | some e =>
    by_cases h403 : r.status_code = 403
    · rw [if_pos h403]
      simp [List.mem_append]
    · rw [if_neg h403]
      exact hmem (jsonPart r).1
  | none =>
    by_cases h403 : r.status_code = 403
    · rw [if_pos h403]
      cases fail with
      | false =>
        simp [List.mem_append]
      | true =>
        cases hr : raise_for_status r with
        | error e =>
          simp [List.mem_append]
        | ok _ =>
          simp [List.mem_append]
    · rw [if_neg h403]
      cases fail with
      | false => exact hmem (jsonPart r).1
      | true =>
        cases hr : raise_for_status r with
        | error e => exact hmem (jsonPart r).1
        | ok _ => exact hmem (jsonPart r).1

/-- On the error path (unexpected status, not an ignored 404), `get` is
exactly `_handle_error`. -/
theorem get_error_path (s : Session) (path : String) (headers : Option Dict)
    (es : Nat) (i404 fail_ : Bool) (r : HttpResponse)
    (hne : ¬r.status_code = es) (hni : ¬(i404 = true ∧ r.status_code = 404)) :
    Session.get s path headers es i404 fail_ r = handle_error s r path fail_ := by
  simp only [Session.get]
  rw [if_neg hne, if_neg hni]

/-- On the error path, `post` is exactly `_handle_error`. -/
theorem post_error_path (s : Session) (path body : String) (headers : Option Dict)
    (es : Nat) (i404 fail_ : Bool) (r : HttpResponse)
    (hne : ¬r.status_code = es) (hni : ¬(i404 = true ∧ r.status_code = 404)) :
    Session.post s path body headers es i404 fail_ r = handle_error s r path fail_ := by
  simp only [Session.post]
  rw [if_neg hne, if_neg hni]

/-- On the error path, `put` is exactly `_handle_error`. -/
theorem put_error_path (s : Session) (path body : String) (headers : Option Dict)
    (es : Nat) (i404 fail_ : Bool) (r : HttpResponse)
    (hne : ¬r.status_code = es) (hni : ¬(i404 = true ∧ r.status_code = 404)) :
    Session.put s path body headers es i404 fail_ r = handle_error s r path fail_ := by
  simp only [Session.put]
  rw [if_neg hne, if_neg hni]

/-! ## Concrete fixtures -/

/-- A configuration with a username, as used by the witnesses. -/
def cfgA : Config :=
  { url := "http://nexus.example", username := some "alice", password := "secret",
    ssl_verify := true }

/-- The session built from `cfgA`. -/
def sessA : Session := Session.init cfgA false

/-- A plain 200 response with body `"abcdef"` delivered in two chunks. -/
def resp200 : HttpResponse :=
  { method := "get", status_code := 200, headers := [], jsonValue := none,
    chunks := ["abc", "def"] }

/-- A 200 response arriving when a 201 was expected. -/
def resp200unexpected : HttpResponse :=
  { method := "post", status_code := 200, headers := [], jsonValue := none,
    chunks := ["b"] }

/-- A 401 response. -/
def resp401 : HttpResponse :=
  { method := "get", status_code := 401, headers := [], jsonValue := none,
    chunks := ["denied"] }

/-- A 404 response. -/
def resp404 : HttpResponse :=
  { method := "get", status_code := 404, headers := [], jsonValue := none,
    chunks := ["missing"] }

/-- A 500 response with a non-JSON body. -/
def resp500 : HttpResponse :=
  { method := "get", status_code := 500, headers := [], jsonValue := none,
    chunks := ["oops"] }

/-- A failing JSON response whose parsed object has no `"errors"` key. -/
def respJsonNoErrors : HttpResponse :=
  { method := "post", status_code := 500,
    headers := [("Content-Type", "application/json")],
    jsonValue := some (Json.obj [("message", Json.str "boom")]),
    chunks := ["x"] }

/-! ## Claims -/

/-- C1: for every GET, POST or PUT call whose response status equals the
caller-supplied `expect_status`, the operation returns the pair
`(response, body text)`, the body text being the raw response body (the
concatenation of the chunks the transport delivered). -/
theorem expected_status_returns_raw_body (s : Session) (path body : String)
    (headers : Option Dict) (es : Nat) (i404 fail_ : Bool) (r : HttpResponse)
    (hst : r.status_code = es) :
    Session.get s path headers es i404 fail_ r = ([], .ok (r, some r.text)) ∧
    Session.post s path body headers es i404 fail_ r = ([], .ok (r, some r.text)) ∧
    Session.put s path body headers es i404 fail_ r = ([], .ok (r, some r.text)) ∧
    r.text = String.join r.chunks := by
  refine ⟨?_, ?_, ?_, rfl⟩
  · simp only [Session.get]; rw [if_pos hst]
  · simp only [Session.post]; rw [if_pos hst]
  · simp only [Session.put]; rw [if_pos hst]

/-- C1 witness: a 200 response with body `"abcdef"` against
`expect_status = 200`. -/
theorem expected_status_returns_raw_body_witness :
    Session.get sessA "/p" none 200 false true resp200 =
      ([], .ok (resp200, some resp200.text)) ∧
    Session.post sessA "/p" "reqbody" none 200 false true resp200 =
      ([], .ok (resp200, some resp200.text)) ∧
    Session.put sessA "/p" "reqbody" none 200 false true resp200 =
      ([], .ok (resp200, some resp200.text)) ∧
    resp200.text = String.join resp200.chunks :=
  expected_status_returns_raw_body sessA "/p" "reqbody" none 200 false true
    resp200 rfl

/-- C2: a 404 response differing from `expect_status` is returned with a
non-null body when `ignore_404` is set, and raises when `ignore_404` is
unset and `fail` is set — for each of GET, POST, PUT. -/
theorem status404_ignored_or_raised (s : Session) (path body : String)
    (headers : Option Dict) (es : Nat) (fail_ : Bool) (r : HttpResponse)
    (hst : r.status_code = 404) (hne : ¬es = 404) :
    (Session.get s path headers es true fail_ r).2 = .ok (r, some r.text) ∧
    (Session.post s path body headers es true fail_ r).2 = .ok (r, some r.text) ∧
    (Session.put s path body headers es true fail_ r).2 = .ok (r, some r.text) ∧
    (∃ e, (Session.get s path headers es false true r).2 = .error e) ∧
    (∃ e, (Session.post s path body headers es false true r).2 = .error e) ∧
    (∃ e, (Session.put s path body headers es false true r).2 = .error e) := by
  have hne' : ¬r.status_code = es := by
    rw [hst]; exact fun hh => hne hh.symm
  have hni : ¬(false = true ∧ r.status_code = 404) := by
    rintro ⟨hf, _⟩; cases hf
  have h4 : 400 ≤ r.status_code := by rw [hst]; omega
  have h6 : r.status_code < 600 := by rw [hst]; omega
  obtain ⟨e, he⟩ := handle_error_raises_of_fail s r path h4 h6
  refine ⟨?_, ?_, ?_, ⟨e, ?_⟩, ⟨e, ?_⟩, ⟨e, ?_⟩⟩
  · simp only [Session.get]; rw [if_neg hne', if_pos ⟨by trivial, hst⟩]
  · simp only [Session.post]; rw [if_neg hne', if_pos ⟨by trivial, hst⟩]
  · simp only [Session.put]; rw [if_neg hne', if_pos ⟨by trivial, hst⟩]
  · rw [get_error_path s path headers es false true r hne' hni]; exact he
  · rw [post_error_path s path body headers es false true r hne' hni]; exact he
  · rw [put_error_path s path body headers es false true r hne' hni]; exact he

/-- C2 witness: a 404 response against `expect_status = 200`. -/
theorem status404_ignored_or_raised_witness :
    (Session.get sessA "/p" none 200 true false resp404).2 =
      .ok (resp404, some resp404.text) ∧
    (Session.post sessA "/p" "reqbody" none 200 true false resp404).2 =
      .ok (resp404, some resp404.text) ∧
    (Session.put sessA "/p" "reqbody" none 200 true false resp404).2 =
      .ok (resp404, some resp404.text) ∧
    (∃ e, (Session.get sessA "/p" none 200 false true resp404).2 = .error e) ∧
    (∃ e, (Session.post sessA "/p" "reqbody" none 200 false true resp404).2 =
      .error e) ∧
    (∃ e, (Session.put sessA "/p" "reqbody" none 200 false true resp404).2 =
      .error e) :=
  status404_ignored_or_raised sessA "/p" "reqbody" none 200 false resp404 rfl
    (by decide)

/-- C3 counterexample: on the error path with `fail=True`, a status outside
the 4xx/5xx range does not raise. A POST answered 200 when 201 was expected
reports the error and returns `(response, None)` even though `fail` is true,
because `raise_for_status` only raises for 4xx/5xx. The claim says a `fail=True`
error path always raises. -/
theorem unexpected_200_with_fail_true_returns_none :
    (Session.post sessA "/x" "reqbody" none 201 false true resp200unexpected).2 =
      Except.ok (resp200unexpected, none) := rfl

/-- C3 (amended): on the error path — status differing from `expect_status`
and not an ignored 404 — provided none of the independent raise paths of the
handler fire (auth configured if the status is 401; a JSON error body, when
present, parsing with a well-formed `errors` list), the outcome is governed
by `fail` together with `raise_for_status`: with `fail` unset, or a status
outside 4xx/5xx, the call returns `(response, None)` after reporting; with
`fail` set and a 4xx/5xx status the call raises. There is no retry: the
operations consult the single supplied response only. -/
theorem error_path_governed_by_fail (s : Session) (path body : String)
    (headers : Option Dict) (es : Nat) (i404 fail_ : Bool) (r : HttpResponse)
    (hne : ¬r.status_code = es) (hni : ¬(i404 = true ∧ r.status_code = 404))
    (hs : handleErrorSafe s r = true) :
    ((fail_ = false ∨ r.status_code < 400 ∨ 600 ≤ r.status_code) →
      (Session.get s path headers es i404 fail_ r).2 = .ok (r, none) ∧
      (Session.post s path body headers es i404 fail_ r).2 = .ok (r, none) ∧
      (Session.put s path body headers es i404 fail_ r).2 = .ok (r, none)) ∧
    (fail_ = true → 400 ≤ r.status_code → r.status_code < 600 →
      ∃ e, (Session.get s path headers es i404 fail_ r).2 = .error e ∧
        (Session.post s path body headers es i404 fail_ r).2 = .error e ∧
        (Session.put s path body headers es i404 fail_ r).2 = .error e) := by
  rw [get_error_path s path headers es i404 fail_ r hne hni,
    post_error_path s path body headers es i404 fail_ r hne hni,
    put_error_path s path body headers es i404 fail_ r hne hni]
  constructor
  · intro hf
    exact ⟨handle_error_ok s r path fail_ hs hf, handle_error_ok s r path fail_ hs hf,
      handle_error_ok s r path fail_ hs hf⟩
  · intro hf h4 h6
    subst hf
    obtain ⟨e, he⟩ := handle_error_raises_of_fail s r path h4 h6
    exact ⟨e, he, he, he⟩

/-- C3 witness: a 500 response with a non-JSON body, `expect_status = 200`,
`fail=False`: all three operations return `(response, None)`. -/
theorem error_path_governed_by_fail_witness :
    ((false = false ∨ resp500.status_code < 400 ∨ 600 ≤ resp500.status_code) →
      (Session.get sessA "/x" none 200 false false resp500).2 =
        .ok (resp500, none) ∧
      (Session.post sessA "/x" "reqbody" none 200 false false resp500).2 =
        .ok (resp500, none) ∧
      (Session.put sessA "/x" "reqbody" none 200 false false resp500).2 =
        .ok (resp500, none)) ∧
    (false = true → 400 ≤ resp500.status_code → resp500.status_code < 600 →
      ∃ e, (Session.get sessA "/x" none 200 false false resp500).2 = .error e ∧
        (Session.post sessA "/x" "reqbody" none 200 false false resp500).2 =
          .error e ∧
        (Session.put sessA "/x" "reqbody" none 200 false false resp500).2 =
          .error e) :=
  error_path_governed_by_fail sessA "/x" "reqbody" none 200 false false resp500
    (by decide) (by decide) (by decide)

/-- C4 counterexample: a request whose response status is 401 need not print
any credential hint. With `expect_status = 401` the 401 is the expected
status, so the call succeeds and prints nothing at all, although the session
has a configured username. The claim quantifies over every request whose
response status is 401. -/
theorem expected_401_prints_nothing :
    sessA.auth = some ("alice", "secret") ∧
    resp401.status_code = 401 ∧
    (Session.get sessA "/p" none 401 false true resp401).1 = [] :=
  ⟨rfl, rfl, rfl⟩

/-- C4 (amended): for every GET, POST or PUT call taking the error path
(status differing from `expect_status`) whose response status is 401, with a
username configured, the diagnostic output contains the credential hint, and
that hint contains the configured username as a substring. -/
theorem error_path_401_prints_credential_hint (s : Session) (path body : String)
    (headers : Option Dict) (es : Nat) (i404 fail_ : Bool) (r : HttpResponse)
    (u pw : String) (h401 : r.status_code = 401) (hne : ¬r.status_code = es)
    (hauth : s.auth = some (u, pw)) :
    (credentialHint u ∈ (Session.get s path headers es i404 fail_ r).1 ∧
      credentialHint u ∈ (Session.post s path body headers es i404 fail_ r).1 ∧
      credentialHint u ∈ (Session.put s path body headers es i404 fail_ r).1) ∧
    ∃ pre suf, credentialHint u = pre ++ u ++ suf := by
  have hni : ¬(i404 = true ∧ r.status_code = 404) := by
    rintro ⟨_, h404⟩
    rw [h401] at h404
    exact absurd h404 (by decide)
  rw [get_error_path s path headers es i404 fail_ r hne hni,
    post_error_path s path body headers es i404 fail_ r hne hni,
    put_error_path s path body headers es i404 fail_ r hne hni]
  have hmem := handle_error_mem_credentialHint s r path fail_ u pw h401 hauth
  exact ⟨⟨hmem, hmem, hmem⟩,
    "Incorrect credentials for user ",
    ". Username can be changed by setting USER env var, or in ~/.config/rcm-nexus.conf.",
    rfl⟩

/-- C4 witness: a 401 response against `expect_status = 200` on the session
with username `"alice"`. -/
theorem error_path_401_prints_credential_hint_witness :
    (credentialHint "alice" ∈ (Session.get sessA "/p" none 200 false true resp401).1 ∧
      credentialHint "alice" ∈
        (Session.post sessA "/p" "reqbody" none 200 false true resp401).1 ∧
      credentialHint "alice" ∈
        (Session.put sessA "/p" "reqbody" none 200 false true resp401).1) ∧
    ∃ pre suf, credentialHint "alice" = pre ++ "alice" ++ suf :=
  error_path_401_prints_credential_hint sessA "/p" "reqbody" none 200 false true
    resp401 "alice" "secret" rfl (by decide) rfl

/-- C5: the merged header mapping takes the call-supplied value for every
key of the overlay `H`, and keeps the session default unchanged for every
key outside `H` — for any genuine dict `H` (no duplicate keys). -/
theorem combine_headers_override (s : Session) (h : Dict) (k : String)
    (hnd : (h.map Prod.fst).Nodup) :
    (∀ v, dictGet h k = some v → dictGet (combine_headers s (some h)).1 k = some v) ∧
    (dictGet h k = none → dictGet (combine_headers s (some h)).1 k = dictGet s.headers k) := by
  constructor
  · intro v hv
    exact dictGet_dictUpdate_of_mem h k v hnd hv s.headers
  · intro hv
    exact dictGet_dictUpdate_of_not_mem h k hv s.headers

/-- C5 witness: overlaying `Accept: text/plain` on the default headers
overrides `Accept` and keeps `Content-Type` at its default. -/
theorem combine_headers_override_witness :
    dictGet (combine_headers sessA (some [("Accept", "text/plain")])).1 "Accept" =
      some "text/plain" ∧
    dictGet (combine_headers sessA (some [("Accept", "text/plain")])).1 "Content-Type" =
      dictGet sessA.headers "Content-Type" :=
  ⟨(combine_headers_override sessA [("Accept", "text/plain")] "Accept"
      (by decide)).1 "text/plain" rfl,
    (combine_headers_override sessA [("Accept", "text/plain")] "Content-Type"
      (by decide)).2 rfl⟩

/-- C6: `_combine_headers` never mutates the session's default header dict.
On the heap model, for any valid reference to the session's dict, the dict
it refers to is unchanged by the call, while the dict returned (a fresh
object) holds the merge. -/
theorem per_call_headers_never_mutate_defaults (hp : Heap) (selfHeaders : Nat)
    (headers : Option Dict) (hr : selfHeaders < hp.length) :
    heapGet (combine_headers_heap hp selfHeaders headers).2 selfHeaders =
      heapGet hp selfHeaders ∧
    heapGet (combine_headers_heap hp selfHeaders headers).2
        (combine_headers_heap hp selfHeaders headers).1 =
      (match headers with
        | none => heapGet hp selfHeaders
        | some h => dictUpdate (heapGet hp selfHeaders) h) := by
  cases headers with
  | none =>
    simp only [combine_headers_heap, heapAlloc]
    exact ⟨heapGet_heapAlloc_of_lt hp _ selfHeaders hr,
      heapGet_heapAlloc_fresh hp _⟩
  | some h =>
    simp only [combine_headers_heap, heapAlloc]
    have hfreshne : hp.length ≠ selfHeaders := by omega
    have hlt : hp.length < (hp ++ [heapGet hp selfHeaders]).length := by
      rw [List.length_append, List.length_cons, List.length_nil]
      omega
    constructor
    · rw [heapGet_heapSet_ne _ _ _ _ hfreshne]
      exact heapGet_heapAlloc_of_lt hp _ selfHeaders hr
    · rw [heapGet_heapSet_self _ _ _ hlt]
      have hfresh : heapGet (hp ++ [heapGet hp selfHeaders]) hp.length =
          heapGet hp selfHeaders :=
        heapGet_heapAlloc_fresh hp (heapGet hp selfHeaders)
      rw [hfresh]

/-- C6 witness: a one-object heap holding the default headers; overlaying
`Accept: text/plain` leaves the stored defaults unchanged and produces the
merge in the fresh object. -/
theorem per_call_headers_never_mutate_defaults_witness :
    heapGet (combine_headers_heap [sessA.headers] 0
        (some [("Accept", "text/plain")])).2 0 =
      heapGet [sessA.headers] 0 ∧
    heapGet (combine_headers_heap [sessA.headers] 0
        (some [("Accept", "text/plain")])).2
        (combine_headers_heap [sessA.headers] 0
          (some [("Accept", "text/plain")])).1 =
      dictUpdate (heapGet [sessA.headers] 0) [("Accept", "text/plain")] :=
  per_call_headers_never_mutate_defaults [sessA.headers] 0
    (some [("Accept", "text/plain")]) (by decide)

/-- C7: a streaming download whose response status is 404 raises the
distinct `FileNotFoundError` and yields no chunks, however many chunks the
consumer would have pulled. -/
theorem stream_404_raises_notfound_no_chunks (s : Session) (url : String)
    (r : HttpResponse) (consumed : Nat) (h404 : r.status_code = 404) :
    (Session.stream_remote s url r consumed).outcome =
      .error .fileNotFoundError ∧
    (Session.stream_remote s url r consumed).yielded = [] := by
  rw [Session.stream_remote, if_pos h404]
  exact ⟨rfl, rfl⟩

/-- C7 witness: streaming a 404 response. -/
theorem stream_404_raises_notfound_no_chunks_witness :
    (Session.stream_remote sessA "http://nexus.example/f" resp404 5).outcome =
      .error .fileNotFoundError ∧
    (Session.stream_remote sessA "http://nexus.example/f" resp404 5).yielded = [] :=
  stream_404_raises_notfound_no_chunks sessA "http://nexus.example/f" resp404 5 rfl

/-- C8: a streaming download whose response status is 200, consumed to the
end, yields chunks whose concatenation is the full response body, and the
connection is closed afterwards. -/
theorem stream_200_concat_eq_body (s : Session) (url : String)
    (r : HttpResponse) (consumed : Nat) (h200 : r.status_code = 200)
    (hc : r.chunks.length ≤ consumed) :
    String.join (Session.stream_remote s url r consumed).yielded = r.text ∧
    (Session.stream_remote s url r consumed).closed = true := by
  have h1 : ¬r.status_code = 404 := by rw [h200]; decide
  have h2 : ¬400 ≤ r.status_code := by rw [h200]; decide
  rw [Session.stream_remote, if_neg h1, if_neg h2]
  refine ⟨?_, rfl⟩
  rw [List.take_of_length_le hc]
  rfl

/-- C8 witness: a 200 response with body `"abcdef"` delivered in two chunks,
both consumed. -/
theorem stream_200_concat_eq_body_witness :
    String.join (Session.stream_remote sessA "http://nexus.example/f" resp200 2).yielded =
      resp200.text ∧
    (Session.stream_remote sessA "http://nexus.example/f" resp200 2).closed = true :=
  stream_200_concat_eq_body sessA "http://nexus.example/f" resp200 2 rfl
    (by decide)

/-- C9: on every exit path of `stream_remote` — the 404 raise, the raise
from `_handle_error` on another `>= 400` status, normal exhaustion of the
chunk stream, or early abandonment by the consumer (any `consumed`) — the
streaming connection acquired by the `with` block is released. -/
theorem stream_connection_always_closed (s : Session) (url : String)
    (r : HttpResponse) (consumed : Nat) :
    (Session.stream_remote s url r consumed).closed = true := by
  rw [Session.stream_remote]
  by_cases h404 : r.status_code = 404
  · rw [if_pos h404]
  · rw [if_neg h404]
    by_cases h4 : 400 ≤ r.status_code
    · rw [if_pos h4]
      rcases hh : handle_error s r url true with ⟨out, res⟩
      cases res with
      | error e => rfl
      | ok v => rfl
    · rw [if_neg h4]

/-- C10: for a failing response with a JSON content type whose parsed body
is an object without an `"errors"` key, `_handle_error` raises no matter
what `fail` is — indexing `data["errors"]` happens before `fail` is
consulted — instead of ever returning `(response, None)`. -/
theorem json_body_missing_errors_key_raises (s : Session) (r : HttpResponse)
    (path : String) (fail_ : Bool) (fields : List (String × Json))
    (hct : contentTypeIsJson r = true)
    (hjson : r.jsonValue = some (Json.obj fields))
    (hkey : fields.find? (fun p => p.1 == "errors") = none) :
    ∃ e, (handle_error s r path fail_).2 = .error e := by
  have h2 : jsonPart r = ([], some (PyError.keyError "errors")) := by
    rw [jsonPart, if_pos hct]
    rw [jsonErrorLines, hjson]
    simp only [jsonIndex, hkey]
  rw [handle_error]
  cases h1 : (hint401 s r).2 with
  | some e => exact ⟨e, rfl⟩
  | none =>
    simp only
    rw [h2]
    exact ⟨.keyError "errors", rfl⟩

/-- C10 witness: a 500 JSON response whose body is
`{"message": "boom"}` (no `"errors"` key), with `fail=False`. -/
theorem json_body_missing_errors_key_raises_witness :
    ∃ e, (handle_error sessA respJsonNoErrors "/j" false).2 = .error e :=
  json_body_missing_errors_key_raises sessA respJsonNoErrors "/j" false
    [("message", Json.str "boom")] (by decide) rfl rfl

end RcmNexus
